import Mathlib

/-!
Verification of the interactive control/transform geometry core of
`src/controls/util.ts` (fabric.js).  The code is shallowly embedded over
the real numbers: JavaScript numbers are modelled as `ℝ`, `Point` and the
2x3 affine transform matrix are structures, and the helpers imported by
`util.ts` from modules outside the sampled sources (origin resolution,
plane changes, total angle, `atan2`) are modelled from the specification,
each marked in its doc comment.
-/

noncomputable section

namespace Fabric

open Real

/-- The 2D point/vector type of the engine (`Point.ts`, external to the
sampled sources).  Value type: every operation returns a new point. -/
structure Point where
  x : ℝ
  y : ℝ

/-- Componentwise addition, as `Point#add`. -/
def Point.add (p q : Point) : Point := ⟨p.x + q.x, p.y + q.y⟩

/-- Componentwise subtraction, as `Point#subtract`. -/
def Point.sub (p q : Point) : Point := ⟨p.x - q.x, p.y - q.y⟩

/-- Modelled from the spec: `Point#rotate(angle, pivot)` rotates the point
by the angle (radians, mathematically positive) around the pivot. -/
def Point.rotateAround (p : Point) (θ : ℝ) (pivot : Point) : Point :=
  ⟨pivot.x + Real.cos θ * (p.x - pivot.x) - Real.sin θ * (p.y - pivot.y),
   pivot.y + Real.sin θ * (p.x - pivot.x) + Real.cos θ * (p.y - pivot.y)⟩

/-- Rotation of a vector about the plane origin (used to model rotating an
object: the control's direction vector rotates with the object). -/
def Point.rotateVec (θ : ℝ) (p : Point) : Point :=
  ⟨Real.cos θ * p.x - Real.sin θ * p.y,
   Real.sin θ * p.x + Real.cos θ * p.y⟩

/-- Fabric's `TMat2D` affine matrix `[a, b, c, d, e, f]`:
`x' = a x + c y + e`, `y' = b x + d y + f`. -/
structure TMat2D where
  a : ℝ
  b : ℝ
  c : ℝ
  d : ℝ
  e : ℝ
  f : ℝ

/-- Application of an affine matrix to a point (`Point#transform`). -/
def TMat2D.apply (m : TMat2D) (p : Point) : Point :=
  ⟨m.a * p.x + m.c * p.y + m.e, m.b * p.x + m.d * p.y + m.f⟩

/-- Matrix composition, `multiplyTransformMatrices m n`: apply `n`, then `m`. -/
def TMat2D.mul (m n : TMat2D) : TMat2D :=
  ⟨m.a * n.a + m.c * n.b,
   m.b * n.a + m.d * n.b,
   m.a * n.c + m.c * n.d,
   m.b * n.c + m.d * n.d,
   m.a * n.e + m.c * n.f + m.e,
   m.b * n.e + m.d * n.f + m.f⟩

/-- Determinant of the linear part. -/
def TMat2D.det (m : TMat2D) : ℝ := m.a * m.d - m.b * m.c

/-- The identity matrix (`iMatrix`). -/
def idMatrix : TMat2D := ⟨1, 0, 0, 1, 0, 0⟩

/-- A pure translation matrix. -/
def TMat2D.translationM (v : Point) : TMat2D := ⟨1, 0, 0, 1, v.x, v.y⟩

/-- Modelled from the spec: `invertTransform` of an affine matrix
(standard 2D affine inverse; division by a zero determinant yields the
junk value 0 the way the embedding's field division does). -/
def TMat2D.invert (m : TMat2D) : TMat2D :=
  ⟨m.d / m.det, -m.b / m.det, -m.c / m.det, m.a / m.det,
   (m.c * m.f - m.d * m.e) / m.det,
   (m.b * m.e - m.a * m.f) / m.det⟩

/-- Symbolic or numeric origin designation (`TOriginX`/`TOriginY`). -/
inductive TOrigin where
  | left
  | top
  | center
  | right
  | bottom
  | num (v : ℝ)

/-- Modelled from the spec: `resolveOrigin` maps symbolic start to -0.5,
center to 0, end to 0.5; a numeric input passes through unchanged
(`util/misc/resolveOrigin.ts` is outside the sampled sources). -/
def resolveOrigin : TOrigin → ℝ
  | TOrigin.left => -0.5
  | TOrigin.top => -0.5
  | TOrigin.center => 0
  | TOrigin.right => 0.5
  | TOrigin.bottom => 0.5
  | TOrigin.num v => v

/-- Modelled from the spec: `resolveOriginPoint` pairs the per-axis
resolved offsets into a point. -/
def resolveOriginPoint (originX originY : TOrigin) : Point :=
  ⟨resolveOrigin originX, resolveOrigin originY⟩

/-- Source `invertOrigin` (`controls/util.ts`): the complementary anchor. -/
def invertOrigin (origin : TOrigin) : ℝ := -resolveOrigin origin + 0.5

/-- Exact point equality, as `Point#eq` (strict componentwise equality). -/
def Point.eqP (p q : Point) : Prop := p.x = q.x ∧ p.y = q.y

/-- Source `isTransformCentered` (`controls/util.ts`): the resolved origin
point equals the zero point. -/
def isTransformCentered (originX originY : TOrigin) : Prop :=
  Point.eqP (resolveOriginPoint originX originY) ⟨0, 0⟩

/-- Pointer event payload; only modifier state matters to resolvers here. -/
structure TPointerEvent where
  shiftKey : Bool
  altKey : Bool

/-- Geometric data of a control: unit-square position and pixel offsets. -/
structure ControlGeom where
  x : ℝ
  y : ℝ
  offsetX : ℝ
  offsetY : ℝ

/-- Per-object lock flags read by `isLocked`. -/
structure LockFlags where
  lockMovementX : Bool
  lockMovementY : Bool
  lockRotation : Bool
  lockScalingX : Bool
  lockScalingY : Bool
  lockSkewingX : Bool
  lockSkewingY : Bool
  lockScalingFlip : Bool

/-- The geometric snapshot of a target object consumed by this core.
Fields that `util.ts` obtains by calling methods defined outside the
sampled sources are modelled from the spec as data:
`relAnchor` is `getRelativeXY` (parent-plane position of each origin
anchor, so that `getXY` composes it with the group matrix),
`group` is the composed ancestor matrix `group.calcTransformMatrix()`,
`totalAngle` is `getTotalAngle` (own angle plus all ancestor angles),
`center` is `getRelativeCenterPoint` (parent-plane center). -/
structure ObjGeom where
  relAnchor : TOrigin → TOrigin → Point
  group : Option TMat2D
  totalAngle : ℝ
  center : Point
  padding : ℝ
  canvasZoom : Option ℝ
  locks : LockFlags

/-- A control: its geometry plus its action-name resolver.  The resolver
receives the pointer event, the control's own geometric data and the
target's geometric snapshot (the model splits `Control` into data and
resolver so the resolver's type is not self-referential). -/
structure Control where
  geom : ControlGeom
  getActionName : TPointerEvent → ControlGeom → ObjGeom → String

/-- The manipulated target object: geometric snapshot plus control set. -/
structure FabricObject where
  geom : ObjGeom
  controls : String → Control

/-- The transform context threading a gesture; only the fields that
`getLocalPoint` destructures are modelled. -/
structure Transform where
  target : FabricObject
  corner : String

/-- The payload built by `commonEventInfo`. -/
structure BasicTransformEvent where
  e : TPointerEvent
  transform : Transform
  pointer : Point

/-- Source `getActionFromCorner` (`controls/util.ts`): an empty corner or
a not-yet-selected target always yields the `drag` action, otherwise the
corner's control resolves the action name.  JavaScript's falsiness test
`!corner` on a string is emptiness. -/
def getActionFromCorner (alreadySelected : Bool) (corner : String)
    (e : TPointerEvent) (target : FabricObject) : String :=
  if corner = "" ∨ alreadySelected = false then "drag"
  else (target.controls corner).getActionName e
    (target.controls corner).geom target.geom

/-- Source `isLocked` (`controls/util.ts`): direct read of one lock flag. -/
def isLocked (target : FabricObject) : String → Bool
  | "lockMovementX" => target.geom.locks.lockMovementX
  | "lockMovementY" => target.geom.locks.lockMovementY
  | "lockRotation" => target.geom.locks.lockRotation
  | "lockScalingX" => target.geom.locks.lockScalingX
  | "lockScalingY" => target.geom.locks.lockScalingY
  | "lockSkewingX" => target.geom.locks.lockSkewingX
  | "lockSkewingY" => target.geom.locks.lockSkewingY
  | "lockScalingFlip" => target.geom.locks.lockScalingFlip
  | _ => false

/-- Source `commonEventInfo` (`controls/util.ts`). -/
def commonEventInfo (eventData : TPointerEvent) (transform : Transform)
    (x y : ℝ) : BasicTransformEvent :=
  ⟨eventData, transform, ⟨x, y⟩⟩

/-- Modelled from the spec: `sendPointToPlane point from to` maps a point
from the source plane into the destination plane, i.e. applies
`invert(to) * from`; a missing plane is the identity. -/
def sendPointToPlane (p : Point) (src dst : Option TMat2D) : Point :=
  (((dst.getD idMatrix).invert).mul (src.getD idMatrix)).apply p

/-- Modelled from the spec: `getXY` returns the position of the requested
origin anchor, the parent-plane anchor projected through the ancestor
group matrix when the object is grouped. -/
def getXY (o : ObjGeom) (originX originY : TOrigin) : Point :=
  match o.group with
  | some m => m.apply (o.relAnchor originX originY)
  | none => o.relAnchor originX originY

/-- Source `normalizePoint` (`controls/util.ts`): rotate the queried point
backward by the total angle around the object's center (skipping a zero
rotation exactly), then subtract the anchor position of the requested
origin.  The JavaScript truthiness test `angle ?` is a non-zero test. -/
def normalizePoint (target : ObjGeom) (point : Point)
    (originX originY : TOrigin) : Point :=
  let angle := target.totalAngle
  let p := sendPointToPlane (getXY target originX originY) none target.group
  let p2 := if angle = 0 then point else point.rotateAround (-angle) target.center
  p2.sub p

/-- Effective canvas zoom: `target.canvas?.getZoom() || 1` — a missing
canvas or a falsy (zero) zoom yields 1. -/
def effectiveZoom (o : ObjGeom) : ℝ :=
  match o.canvasZoom with
  | some z => if z = 0 then 1 else z
  | none => 1

/-- Source `getLocalPoint` (`controls/util.ts`): normalize the queried
point, apply the two sequential dead-zone collapses per axis (the y-axis
lower test compares against `padding`, not `-padding`), then subtract the
control's pixel offset.  The sequential mutations of the source are
modelled by chained lets. -/
def getLocalPoint (t : Transform) (originX originY : TOrigin)
    (x y : ℝ) : Point :=
  let control := t.target.controls t.corner
  let zoom := effectiveZoom t.target.geom
  let padding := t.target.geom.padding / zoom
  let localPoint := normalizePoint t.target.geom ⟨x, y⟩ originX originY
  let x1 := if padding ≤ localPoint.x then localPoint.x - padding else localPoint.x
  let x2 := if x1 ≤ -padding then x1 + padding else x1
  let y1 := if padding ≤ localPoint.y then localPoint.y - padding else localPoint.y
  let y2 := if y1 ≤ padding then y1 + padding else y1
  ⟨x2 - control.geom.offsetX, y2 - control.geom.offsetY⟩

/-- Modelled from the spec: the constant `twoMathPi` is a full turn. -/
def twoMathPi : ℝ := 2 * Real.pi

/-- Modelled from the spec: the constant `PIBy4` is 45 degrees. -/
def PIBy4 : ℝ := Real.pi / 4

/-- Flooring real modulus.  It agrees with JavaScript's `%` operator on a
nonnegative dividend, which is the only way `findCornerQuadrant` uses it
(`rotation + twoMathPi` is at least pi because `atan2` is at least -pi). -/
def jsMod (a b : ℝ) : ℝ := a - b * ⌊a / b⌋

/-- Modelled from the spec: `calcVectorRotation v` is `atan2(v.y, v.x)`,
the argument of the vector as a complex number, in `(-pi, pi]`. -/
def calcVectorRotation (v : Point) : ℝ :=
  Complex.arg ⟨v.x, v.y⟩

/-- The angle-level body of `findCornerQuadrant`: wrap the rotation into
a full turn and round to the nearest multiple of 45 degrees. -/
def quadrantOfRotation (rotation : ℝ) : ℤ :=
  round (jsMod (rotation + twoMathPi) twoMathPi / PIBy4)

/-- Source `findCornerQuadrant` (`controls/util.ts`).  The object and
control enter through the vector from the object's rotation origin to the
control's position (`fabricObject.bbox.vectorFromOrigin(new Point(control))`,
whose helpers live outside the sampled sources); rotating the object
rotates this vector by the same angle. -/
def findCornerQuadrant (v : Point) : ℤ :=
  quadrantOfRotation (calcVectorRotation v)

/-- Reference function written from the spec's words for the y-axis
dead-zone: padding is subtracted when the coordinate is at least the
padding, then padding is added when the (updated) coordinate is at most
`+padding` — the non-negated lower bound of section 4.3 step 4. -/
def yDeadZoneSpec (padding v : ℝ) : ℝ :=
  let v1 := if padding ≤ v then v - padding else v
  if v1 ≤ padding then v1 + padding else v1

/-- Translation of a point by a vector. -/
def translatePoint (v p : Point) : Point := ⟨p.x + v.x, p.y + v.y⟩

/-- Modelled from the spec: translating the target object, and with it
every ancestor group, by a vector.  For an ungrouped object its anchors
and center (parent plane = scene plane) shift by the vector; for a
grouped object the ancestor chain absorbs the shift, so the composed
group matrix gains the translation while the object's parent-plane data
is untouched. -/
def FabricObject.translate (o : FabricObject) (v : Point) : FabricObject :=
  match o.geom.group with
  | none =>
    { o with geom :=
      { o.geom with
        relAnchor := fun oX oY => translatePoint v (o.geom.relAnchor oX oY)
        center := translatePoint v o.geom.center } }
  | some m =>
    { o with geom := { o.geom with group := some ((TMat2D.translationM v).mul m) } }

/-- Modelled from the spec and the caller contract: the coordinates fed
to `getLocalPoint` are expressed in the target's parent plane (the canvas
sends the scene pointer through `sendPointToPlane` with the group matrix
before any transform handler runs).  Translating the scene by a vector
thus shifts the queried point of an ungrouped object by that vector and
leaves the parent-plane coordinates of a grouped object's point
unchanged, since its plane moved along. -/
def pointerAfterTranslate (o : FabricObject) (v p : Point) : Point :=
  match o.geom.group with
  | none => translatePoint v p
  | some _ => p

/-- A concrete bottom-right scaling control used to exercise theorems. -/
def sampleControl : Control :=
  ⟨⟨0.5, 0.5, 0, 0⟩, fun _ _ _ => "scale"⟩

/-- All lock flags cleared. -/
def sampleLocks : LockFlags :=
  ⟨false, false, false, false, false, false, false, false⟩

/-- A concrete ungrouped, unrotated object with padding 2, anchored at the
plane origin, with no canvas. -/
def sampleGeom : ObjGeom :=
  ⟨fun _ _ => ⟨0, 0⟩, none, 0, ⟨0, 0⟩, 2, none, sampleLocks⟩

/-- A concrete target object whose every corner holds `sampleControl`. -/
def sampleObject : FabricObject :=
  ⟨sampleGeom, fun _ => sampleControl⟩

/-- A concrete transform context on the bottom-right corner. -/
def sampleTransform : Transform := ⟨sampleObject, "br"⟩

/-- A concrete pointer event with no modifier keys. -/
def sampleEvent : TPointerEvent := ⟨false, false⟩

/-- Helper: the x component of `getLocalPoint`, written out. -/
theorem getLocalPoint_x_eq (t : Transform) (originX originY : TOrigin)
    (x y : ℝ) :
    (getLocalPoint t originX originY x y).x =
      (let padding := t.target.geom.padding / effectiveZoom t.target.geom
       let v := (normalizePoint t.target.geom ⟨x, y⟩ originX originY).x
       let v1 := if padding ≤ v then v - padding else v
       if v1 ≤ -padding then v1 + padding else v1)
      - (t.target.controls t.corner).geom.offsetX := rfl

/-- Helper: the y component of `getLocalPoint`, written out. -/
theorem getLocalPoint_y_eq (t : Transform) (originX originY : TOrigin)
    (x y : ℝ) :
    (getLocalPoint t originX originY x y).y =
      (let padding := t.target.geom.padding / effectiveZoom t.target.geom
       let v := (normalizePoint t.target.geom ⟨x, y⟩ originX originY).y
       let v1 := if padding ≤ v then v - padding else v
       if v1 ≤ padding then v1 + padding else v1)
      - (t.target.controls t.corner).geom.offsetY := rfl

/-- Helper: the sample object normalizes the point (2, v) to itself for
centered origins. -/
theorem sample_normalize (x y : ℝ) :
    normalizePoint sampleGeom ⟨x, y⟩ TOrigin.center TOrigin.center = ⟨x, y⟩ := by
  simp [normalizePoint, sampleGeom, sendPointToPlane, getXY, idMatrix,
    TMat2D.invert, TMat2D.mul, TMat2D.apply, TMat2D.det, Point.sub]

/-- Helper: matrix composition applies right factor first. -/
theorem TMat2D.apply_mul (m n : TMat2D) (p : Point) :
    (m.mul n).apply p = m.apply (n.apply p) := by
  simp only [TMat2D.mul, TMat2D.apply, Point.mk.injEq]
  constructor <;> ring

/-- Helper: right identity of composition. -/
theorem TMat2D.mul_idMatrix (m : TMat2D) : m.mul idMatrix = m := by
  simp only [TMat2D.mul, idMatrix]
  cases m
  simp only [TMat2D.mk.injEq]
  norm_num

/-- Helper: the affine inverse undoes the matrix when the determinant is
non-zero. -/
theorem TMat2D.invert_apply_apply (m : TMat2D) (h : m.det ≠ 0) (p : Point) :
    m.invert.apply (m.apply p) = p := by
  obtain ⟨a, b, c, d, e, f⟩ := m
  obtain ⟨px, py⟩ := p
  simp only [TMat2D.invert, TMat2D.apply, TMat2D.det, Point.mk.injEq] at *
  constructor <;> field_simp <;> ring

/-- Helper: translation composed with a matrix keeps its determinant. -/
theorem TMat2D.det_translationM_mul (v : Point) (m : TMat2D) :
    ((TMat2D.translationM v).mul m).det = m.det := by
  simp only [TMat2D.translationM, TMat2D.mul, TMat2D.det]
  ring

/-- Helper: a plane change with no source and destination planes is the
identity. -/
theorem sendPointToPlane_none (p : Point) :
    sendPointToPlane p none none = p := by
  obtain ⟨px, py⟩ := p
  simp only [sendPointToPlane, Option.getD, idMatrix, TMat2D.invert,
    TMat2D.det, TMat2D.mul, TMat2D.apply, Point.mk.injEq]
  norm_num

/-- Helper: rotating a translated point around the translated pivot is
the translated rotation. -/
theorem rotateAround_translate (v p c : Point) (θ : ℝ) :
    (translatePoint v p).rotateAround θ (translatePoint v c) =
      translatePoint v (p.rotateAround θ c) := by
  simp only [translatePoint, Point.rotateAround, Point.mk.injEq]
  constructor <;> ring

/-- Helper: subtraction of equally translated points. -/
theorem sub_translate (v p q : Point) :
    (translatePoint v p).sub (translatePoint v q) = p.sub q := by
  simp only [translatePoint, Point.sub, Point.mk.injEq]
  constructor <;> ring

/-- Helper: translating an object does not touch its control set. -/
theorem translate_controls (o : FabricObject) (v : Point) :
    (o.translate v).controls = o.controls := by
  cases h : o.geom.group <;> simp [FabricObject.translate, h]

/-- Helper: translating an object does not touch its padding. -/
theorem translate_padding (o : FabricObject) (v : Point) :
    (o.translate v).geom.padding = o.geom.padding := by
  cases h : o.geom.group <;> simp [FabricObject.translate, h]

/-- Helper: translating an object does not touch its canvas zoom. -/
theorem translate_zoom (o : FabricObject) (v : Point) :
    effectiveZoom (o.translate v).geom = effectiveZoom o.geom := by
  cases h : o.geom.group <;> simp [FabricObject.translate, effectiveZoom, h]

/-- Helper: `normalizePoint` is unchanged by translating the object, its
ancestor groups, and the queried point together. -/
theorem normalizePoint_translate (o : FabricObject) (v p : Point)
    (originX originY : TOrigin)
    (hdet : ∀ m, o.geom.group = some m → m.det ≠ 0) :
    normalizePoint (o.translate v).geom (pointerAfterTranslate o v p)
      originX originY = normalizePoint o.geom p originX originY := by
  cases hg : o.geom.group with
  | none =>
    simp only [normalizePoint, FabricObject.translate, pointerAfterTranslate,
      hg, getXY, sendPointToPlane_none]
    by_cases hang : o.geom.totalAngle = 0 <;>
      simp [hang, rotateAround_translate, sub_translate]
  | some m =>
    have hm : m.det ≠ 0 := hdet m hg
    simp only [normalizePoint, FabricObject.translate, pointerAfterTranslate,
      hg, getXY, sendPointToPlane, Option.getD, TMat2D.mul_idMatrix]
    rw [TMat2D.invert_apply_apply m hm,
      TMat2D.invert_apply_apply ((TMat2D.translationM v).mul m)
        (by rw [TMat2D.det_translationM_mul]; exact hm)]

/-- Claim C8: `getLocalPoint` is translation-invariant — translating the
target (and its ancestor groups, if any, which requires an invertible
group matrix) together with the queried point leaves the local point
unchanged. -/
theorem getLocalPoint_translation_invariant (o : FabricObject)
    (corner : String) (originX originY : TOrigin) (x y : ℝ) (v : Point)
    (hdet : ∀ m, o.geom.group = some m → m.det ≠ 0) :
    getLocalPoint ⟨o.translate v, corner⟩ originX originY
      (pointerAfterTranslate o v ⟨x, y⟩).x
      (pointerAfterTranslate o v ⟨x, y⟩).y =
    getLocalPoint ⟨o, corner⟩ originX originY x y := by
  have hnorm := normalizePoint_translate o v ⟨x, y⟩ originX originY hdet
  simp only [getLocalPoint, translate_controls, translate_padding,
    translate_zoom]
  rw [show (⟨(pointerAfterTranslate o v ⟨x, y⟩).x,
      (pointerAfterTranslate o v ⟨x, y⟩).y⟩ : Point) =
      pointerAfterTranslate o v ⟨x, y⟩ from rfl, hnorm]

/-- Translating the sample object and its queried point by (7, -4)
leaves the local point unchanged, through claim C8's theorem. -/
theorem getLocalPoint_translation_invariant_witness :
    getLocalPoint ⟨sampleObject.translate ⟨7, -4⟩, "br"⟩ TOrigin.center
      TOrigin.center (pointerAfterTranslate sampleObject ⟨7, -4⟩ ⟨2, 3⟩).x
      (pointerAfterTranslate sampleObject ⟨7, -4⟩ ⟨2, 3⟩).y =
    getLocalPoint ⟨sampleObject, "br"⟩ TOrigin.center TOrigin.center 2 3 :=
  getLocalPoint_translation_invariant sampleObject "br" TOrigin.center
    TOrigin.center 2 3 ⟨7, -4⟩
    (fun m hm => by simp [sampleObject, sampleGeom] at hm)

/-- Claim C6: for every origin, `invertOrigin o = -resolveOrigin o + 0.5`,
and applying `invertOrigin` to its own (numeric) result recovers the
original resolved value. -/
theorem invertOrigin_involution (o : TOrigin) :
    invertOrigin o = -resolveOrigin o + 0.5 ∧
    invertOrigin (TOrigin.num (invertOrigin o)) = resolveOrigin o := by
  refine ⟨rfl, ?_⟩
  simp only [invertOrigin, resolveOrigin]
  ring

/-- Claim C7: `isTransformCentered` holds exactly when both resolved
origin offsets are zero, and fails whenever either axis resolves to a
non-zero offset. -/
theorem isTransformCentered_iff (originX originY : TOrigin) :
    (isTransformCentered originX originY ↔
      resolveOrigin originX = 0 ∧ resolveOrigin originY = 0) ∧
    (resolveOrigin originX ≠ 0 ∨ resolveOrigin originY ≠ 0 →
      ¬ isTransformCentered originX originY) := by
  constructor
  · exact Iff.rfl
  · intro h hc
    rcases hc with ⟨hx, hy⟩
    rcases h with h | h <;> exact h (by assumption)

/-- The centered origin pair satisfies `isTransformCentered`, through
claim C7's characterization. -/
theorem isTransformCentered_iff_witness :
    isTransformCentered TOrigin.center TOrigin.center :=
  (isTransformCentered_iff TOrigin.center TOrigin.center).1.mpr ⟨rfl, rfl⟩

/-- Claim C5: with an empty corner or a not-yet-selected target the
action is `drag`; otherwise it is the corner control's resolved name
applied to the event, the control and the target. -/
theorem getActionFromCorner_spec (alreadySelected : Bool) (corner : String)
    (e : TPointerEvent) (target : FabricObject) :
    ((corner = "" ∨ alreadySelected = false) →
      getActionFromCorner alreadySelected corner e target = "drag") ∧
    (corner ≠ "" → alreadySelected = true →
      getActionFromCorner alreadySelected corner e target =
        (target.controls corner).getActionName e
          (target.controls corner).geom target.geom) := by
  constructor
  · intro h
    simp [getActionFromCorner, h]
  · intro h1 h2
    simp [getActionFromCorner, h1, h2]

/-- A first click on an unselected object at corner `br` begins a drag,
through claim C5's theorem. -/
theorem getActionFromCorner_spec_witness :
    getActionFromCorner false "br" sampleEvent sampleObject = "drag" :=
  (getActionFromCorner_spec false "br" sampleEvent sampleObject).1 (Or.inr rfl)

/-- Claim C2: with padding `P` positive and zoom 1, a normalized local
x-coordinate of exactly `P` collapses to 0, one of `P + 5` collapses
to 5, and one of `-P` collapses to 0, all before `offsetX` is
subtracted. -/
theorem getLocalPoint_padding_collapse_x (t : Transform)
    (originX originY : TOrigin) (x y P : ℝ) (hP : 0 < P)
    (hpad : t.target.geom.padding = P)
    (hz : effectiveZoom t.target.geom = 1) :
    ((normalizePoint t.target.geom ⟨x, y⟩ originX originY).x = P →
      (getLocalPoint t originX originY x y).x =
        0 - (t.target.controls t.corner).geom.offsetX) ∧
    ((normalizePoint t.target.geom ⟨x, y⟩ originX originY).x = P + 5 →
      (getLocalPoint t originX originY x y).x =
        5 - (t.target.controls t.corner).geom.offsetX) ∧
    ((normalizePoint t.target.geom ⟨x, y⟩ originX originY).x = -P →
      (getLocalPoint t originX originY x y).x =
        0 - (t.target.controls t.corner).geom.offsetX) := by
  refine ⟨?_, ?_, ?_⟩ <;> intro h <;>
    simp only [getLocalPoint_x_eq, hpad, hz, div_one, h] <;>
    split_ifs <;> linarith

/-- The sample object (padding 2, no canvas) collapses a normalized local
x-coordinate of exactly 2 to 0, through claim C2's theorem. -/
theorem getLocalPoint_padding_collapse_x_witness :
    (getLocalPoint sampleTransform TOrigin.center TOrigin.center 2 0).x =
      0 - (sampleTransform.target.controls sampleTransform.corner).geom.offsetX :=
  (getLocalPoint_padding_collapse_x sampleTransform TOrigin.center TOrigin.center
    2 0 2 (by norm_num) rfl rfl).1
    (by rw [show normalizePoint sampleTransform.target.geom ⟨2, 0⟩
        TOrigin.center TOrigin.center = ⟨2, 0⟩ from sample_normalize 2 0])

/-- Claim C3: for every input, the y component of `getLocalPoint` is the
spec's sequential y dead-zone (subtract padding when at least padding,
then add padding when at most `+padding`, the non-negated lower bound)
followed by the `offsetY` subtraction. -/
theorem getLocalPoint_y_refines_spec (t : Transform)
    (originX originY : TOrigin) (x y : ℝ) :
    (getLocalPoint t originX originY x y).y =
      yDeadZoneSpec (t.target.geom.padding / effectiveZoom t.target.geom)
        (normalizePoint t.target.geom ⟨x, y⟩ originX originY).y
      - (t.target.controls t.corner).geom.offsetY := rfl

/-- Claim C4: with padding `P` positive, zoom 1 and a zero control
`offsetY`, the y collapse sends `v < P` to `v + P`, keeps
`P ≤ v ≤ 2P` unchanged, sends `v > 2P` to `v - P`, and never sends a
positive coordinate to 0. -/
theorem getLocalPoint_y_collapse_characterization (t : Transform)
    (originX originY : TOrigin) (x y P v : ℝ) (hP : 0 < P)
    (hpad : t.target.geom.padding = P)
    (hz : effectiveZoom t.target.geom = 1)
    (hoff : (t.target.controls t.corner).geom.offsetY = 0)
    (hv : (normalizePoint t.target.geom ⟨x, y⟩ originX originY).y = v) :
    (v < P → (getLocalPoint t originX originY x y).y = v + P) ∧
    (P ≤ v → v ≤ 2 * P → (getLocalPoint t originX originY x y).y = v) ∧
    (2 * P < v → (getLocalPoint t originX originY x y).y = v - P) ∧
    (0 < v → (getLocalPoint t originX originY x y).y ≠ 0) := by
  have hy := getLocalPoint_y_eq t originX originY x y
  simp only [hpad, hz, div_one, hv, hoff, sub_zero] at hy
  refine ⟨?_, ?_, ?_, ?_⟩
  · intro h
    rw [hy]
    split_ifs <;> linarith
  · intro h1 h2
    rw [hy]
    split_ifs <;> linarith
  · intro h
    rw [hy]
    split_ifs <;> linarith
  · intro h
    rw [hy]
    split_ifs <;> intro hc <;> linarith

/-- The sample object (padding 2, no canvas, zero offsets) keeps a
normalized local y-coordinate of 3 (between P and 2P) unchanged, through
claim C4's theorem. -/
theorem getLocalPoint_y_collapse_witness :
    (getLocalPoint sampleTransform TOrigin.center TOrigin.center 0 3).y = 3 :=
  ((getLocalPoint_y_collapse_characterization sampleTransform TOrigin.center
    TOrigin.center 0 3 2 3 (by norm_num) rfl rfl rfl
    (by rw [show normalizePoint sampleTransform.target.geom ⟨0, 3⟩
        TOrigin.center TOrigin.center = ⟨0, 3⟩ from sample_normalize 0 3])).2.1
    (by norm_num) (by norm_num))

/-- Helper: flooring modulus as a scaled fractional part. -/
theorem jsMod_eq_mul_fract (a b : ℝ) (hb : b ≠ 0) :
    jsMod a b = b * Int.fract (a / b) := by
  unfold jsMod Int.fract
  field_simp

/-- Helper: the flooring modulus is nonnegative for a positive modulus. -/
theorem jsMod_nonneg (a b : ℝ) (hb : 0 < b) : 0 ≤ jsMod a b := by
  rw [jsMod_eq_mul_fract a b hb.ne']
  exact mul_nonneg hb.le (Int.fract_nonneg _)

/-- Helper: the flooring modulus stays below a positive modulus. -/
theorem jsMod_lt (a b : ℝ) (hb : 0 < b) : jsMod a b < b := by
  rw [jsMod_eq_mul_fract a b hb.ne']
  calc b * Int.fract (a / b) < b * 1 :=
        mul_lt_mul_of_pos_left (Int.fract_lt_one _) hb
    _ = b := mul_one b

/-- Helper: the flooring modulus fixes values already in range. -/
theorem jsMod_eq_self (a b : ℝ) (h0 : 0 ≤ a) (hab : a < b) : jsMod a b = a := by
  have hb : 0 < b := lt_of_le_of_lt h0 hab
  unfold jsMod
  have hfl : ⌊a / b⌋ = 0 := by
    rw [Int.floor_eq_zero_iff]
    exact Set.mem_Ico.mpr ⟨div_nonneg h0 hb.le, (div_lt_one hb).mpr hab⟩
  rw [hfl]
  simp

/-- Helper: the flooring modulus drops integer multiples of the modulus. -/
theorem jsMod_add_int_mul (a b : ℝ) (k : ℤ) (hb : b ≠ 0) :
    jsMod (a + b * k) b = jsMod a b := by
  unfold jsMod
  have h1 : (a + b * k) / b = a / b + k := by
    field_simp
    ring
  rw [h1, Int.floor_add_int]
  push_cast
  ring

/-- Helper: `PIBy4` is positive. -/
theorem PIBy4_pos : 0 < PIBy4 := by
  unfold PIBy4
  positivity

/-- Helper: `twoMathPi` is positive. -/
theorem twoMathPi_pos : 0 < twoMathPi := Real.two_pi_pos

/-- Helper: a full turn is eight octants. -/
theorem twoMathPi_eq : twoMathPi = 8 * PIBy4 := by
  unfold twoMathPi PIBy4
  ring

/-- Helper: `quadrantOfRotation` ignores whole turns. -/
theorem quadrantOfRotation_add_two_pi_int (θ : ℝ) (k : ℤ) :
    quadrantOfRotation (θ + twoMathPi * k) = quadrantOfRotation θ := by
  unfold quadrantOfRotation
  have h : θ + twoMathPi * k + twoMathPi = θ + twoMathPi + twoMathPi * k := by
    ring
  rw [h, jsMod_add_int_mul _ _ k twoMathPi_pos.ne']

/-- Helper: `quadrantOfRotation` always lands in `[0, 8]`. -/
theorem quadrantOfRotation_mem (θ : ℝ) :
    0 ≤ quadrantOfRotation θ ∧ quadrantOfRotation θ ≤ 8 := by
  unfold quadrantOfRotation
  set m := jsMod (θ + twoMathPi) twoMathPi with hm
  have hm0 : 0 ≤ m := jsMod_nonneg _ _ twoMathPi_pos
  have hm2 : m < twoMathPi := jsMod_lt _ _ twoMathPi_pos
  have hx0 : 0 ≤ m / PIBy4 := div_nonneg hm0 PIBy4_pos.le
  have hx8 : m / PIBy4 < 8 := by
    rw [div_lt_iff₀ PIBy4_pos]
    rw [twoMathPi_eq] at hm2
    linarith
  constructor
  · rw [round_eq]
    exact Int.le_floor.mpr (by push_cast; linarith)
  · rw [round_eq]
    calc ⌊m / PIBy4 + 1 / 2⌋ ≤ ⌊(17 : ℝ) / 2⌋ :=
          Int.floor_le_floor (by linarith)
      _ = 8 := by
          rw [Int.floor_eq_iff]
          norm_num

/-- Helper: adding one octant to the rotation shifts the octant index by
one, modulo eight. -/
theorem quadrantOfRotation_shift (θ : ℝ) :
    quadrantOfRotation (θ + PIBy4) % 8 = (quadrantOfRotation θ + 1) % 8 := by
  set m := jsMod (θ + twoMathPi) twoMathPi with hm
  have hm0 : 0 ≤ m := jsMod_nonneg _ _ twoMathPi_pos
  have hm2 : m < twoMathPi := jsMod_lt _ _ twoMathPi_pos
  have hk : θ + twoMathPi = m + twoMathPi * ⌊(θ + twoMathPi) / twoMathPi⌋ := by
    rw [hm]
    unfold jsMod
    ring
  have hkey : jsMod (θ + PIBy4 + twoMathPi) twoMathPi =
      jsMod (m + PIBy4) twoMathPi := by
    have harr : θ + PIBy4 + twoMathPi =
        m + PIBy4 + twoMathPi * ⌊(θ + twoMathPi) / twoMathPi⌋ := by
      linear_combination hk
    rw [harr, jsMod_add_int_mul _ _ _ twoMathPi_pos.ne']
  by_cases hc : m + PIBy4 < twoMathPi
  · have h1 : jsMod (m + PIBy4) twoMathPi = m + PIBy4 :=
      jsMod_eq_self _ _ (by linarith [PIBy4_pos]) hc
    unfold quadrantOfRotation
    rw [hkey, h1]
    have h2 : (m + PIBy4) / PIBy4 = m / PIBy4 + ((1 : ℤ) : ℝ) := by
      push_cast
      rw [add_div, div_self PIBy4_pos.ne']
    rw [h2, round_add_int]
  · push_neg at hc
    have hub : m + PIBy4 - twoMathPi < twoMathPi := by
      have := PIBy4_pos
      rw [twoMathPi_eq] at hm2 ⊢
      linarith
    have hlb : 0 ≤ m + PIBy4 - twoMathPi := by linarith
    have h1 : jsMod (m + PIBy4) twoMathPi = m + PIBy4 - twoMathPi := by
      have harr : m + PIBy4 = m + PIBy4 - twoMathPi + twoMathPi * ((1 : ℤ) : ℝ) := by
        push_cast
        ring
      rw [harr, jsMod_add_int_mul _ _ _ twoMathPi_pos.ne',
        jsMod_eq_self _ _ hlb hub]
      push_cast
      ring
    unfold quadrantOfRotation
    rw [hkey, h1]
    have h2 : (m + PIBy4 - twoMathPi) / PIBy4 = m / PIBy4 + ((-7 : ℤ) : ℝ) := by
      push_cast
      rw [show m + PIBy4 - twoMathPi = m + -7 * PIBy4 by rw [twoMathPi_eq]; ring,
        add_div, mul_div_cancel_right₀ _ PIBy4_pos.ne']
    rw [h2, round_add_int, ← hm]
    omega

/-- Helper: rotating a vector multiplies its complex form by the unit
vector of the rotation angle. -/
theorem rotateVec_toComplex (θ : ℝ) (v : Point) :
    (⟨(Point.rotateVec θ v).x, (Point.rotateVec θ v).y⟩ : ℂ) =
      (⟨Real.cos θ, Real.sin θ⟩ : ℂ) * ⟨v.x, v.y⟩ := by
  apply Complex.ext
  · simp [Point.rotateVec, Complex.mul_re]
  · simp [Point.rotateVec, Complex.mul_im]
    ring

/-- Helper: the unit vector of an angle is a non-zero complex number. -/
theorem cos_sin_ne_zero (θ : ℝ) : (⟨Real.cos θ, Real.sin θ⟩ : ℂ) ≠ 0 := by
  intro h
  have hre : Real.cos θ = 0 := by simpa using congrArg Complex.re h
  have him : Real.sin θ = 0 := by simpa using congrArg Complex.im h
  have := Real.sin_sq_add_cos_sq θ
  rw [hre, him] at this
  norm_num at this

/-- Claim C1 counterexample: a control whose direction vector points one
sixteenth of a turn below the positive x-axis is classified as octant 8,
not an index in `[0, 7]`. -/
theorem findCornerQuadrant_returns_eight :
    findCornerQuadrant ⟨Real.cos (-(Real.pi / 16)), Real.sin (-(Real.pi / 16))⟩ = 8 := by
  have hπ := Real.pi_pos
  have harg : calcVectorRotation
      ⟨Real.cos (-(Real.pi / 16)), Real.sin (-(Real.pi / 16))⟩ = -(Real.pi / 16) := by
    unfold calcVectorRotation
    rw [Complex.mk_eq_add_mul_I]
    show Complex.arg (↑(Real.cos (-(Real.pi / 16))) +
      ↑(Real.sin (-(Real.pi / 16))) * Complex.I) = -(Real.pi / 16)
    rw [Complex.ofReal_cos, Complex.ofReal_sin]
    exact Complex.arg_cos_add_sin_mul_I ⟨by linarith, by linarith⟩
  unfold findCornerQuadrant
  rw [harg]
  unfold quadrantOfRotation
  have h1 : jsMod (-(Real.pi / 16) + twoMathPi) twoMathPi =
      -(Real.pi / 16) + twoMathPi := by
    apply jsMod_eq_self <;> unfold twoMathPi <;> linarith
  rw [h1]
  have h2 : (-(Real.pi / 16) + twoMathPi) / PIBy4 = 31 / 4 := by
    unfold twoMathPi PIBy4
    rw [div_eq_iff (by positivity : (0:ℝ) < Real.pi / 4).ne']
    ring
  rw [h2, round_eq]
  have h3 : (31 : ℝ) / 4 + 1 / 2 = 33 / 4 := by norm_num
  rw [h3, Int.floor_eq_iff]
  norm_num

/-- Claim C1 (amended): `findCornerQuadrant` always returns an integer in
`[0, 8]`; the value 8 arises for directions within half an octant below
the positive x-axis and denotes the same sector as 0. -/
theorem findCornerQuadrant_range (v : Point) :
    0 ≤ findCornerQuadrant v ∧ findCornerQuadrant v ≤ 8 :=
  quadrantOfRotation_mem (calcVectorRotation v)

/-- Claim C9: rotating the object by exactly 45 degrees shifts a
control's octant index by exactly one modulo eight, and rotating by a
full turn restores it, for every control whose direction vector is
non-zero. -/
theorem findCornerQuadrant_rotation_equivariant (v : Point)
    (hv : ¬(v.x = 0 ∧ v.y = 0)) :
    findCornerQuadrant (Point.rotateVec PIBy4 v) % 8 =
      (findCornerQuadrant v + 1) % 8 ∧
    findCornerQuadrant (Point.rotateVec twoMathPi v) = findCornerQuadrant v := by
  constructor
  · have hz : (⟨v.x, v.y⟩ : ℂ) ≠ 0 := by
      intro h
      exact hv ⟨by simpa using congrArg Complex.re h,
        by simpa using congrArg Complex.im h⟩
    have hw := cos_sin_ne_zero PIBy4
    have hmul := Complex.arg_mul_coe_angle hw hz
    have hargw : Complex.arg ⟨Real.cos PIBy4, Real.sin PIBy4⟩ = PIBy4 := by
      rw [Complex.mk_eq_add_mul_I]
      show Complex.arg (↑(Real.cos PIBy4) + ↑(Real.sin PIBy4) * Complex.I) = PIBy4
      rw [Complex.ofReal_cos, Complex.ofReal_sin]
      refine Complex.arg_cos_add_sin_mul_I ⟨?_, ?_⟩ <;> unfold PIBy4 <;>
        linarith [Real.pi_pos]
    rw [hargw, ← Real.Angle.coe_add] at hmul
    obtain ⟨k, hk⟩ := Real.Angle.angle_eq_iff_two_pi_dvd_sub.mp hmul
    have harg2 : Complex.arg ((⟨Real.cos PIBy4, Real.sin PIBy4⟩ : ℂ) * ⟨v.x, v.y⟩) =
        Complex.arg ⟨v.x, v.y⟩ + PIBy4 + twoMathPi * k := by
      unfold twoMathPi
      linarith [hk]
    unfold findCornerQuadrant calcVectorRotation
    rw [rotateVec_toComplex, harg2, quadrantOfRotation_add_two_pi_int,
      quadrantOfRotation_shift]
  · have hid : Point.rotateVec twoMathPi v = v := by
      unfold Point.rotateVec twoMathPi
      rw [Real.cos_two_pi, Real.sin_two_pi]
      show Point.mk (1 * v.x - 0 * v.y) (0 * v.x + 1 * v.y) = v
      rw [one_mul, zero_mul, one_mul, zero_mul, sub_zero, zero_add]
    rw [hid]

/-- The unit vector along the positive x-axis is non-zero, and through
claim C9's theorem its octant index shifts by one under a 45 degree
rotation and is restored by a full turn. -/
theorem findCornerQuadrant_rotation_equivariant_witness :
    findCornerQuadrant (Point.rotateVec PIBy4 ⟨1, 0⟩) % 8 =
      (findCornerQuadrant ⟨1, 0⟩ + 1) % 8 ∧
    findCornerQuadrant (Point.rotateVec twoMathPi ⟨1, 0⟩) =
      findCornerQuadrant ⟨1, 0⟩ :=
  findCornerQuadrant_rotation_equivariant ⟨1, 0⟩ (by norm_num)

end Fabric

end
